import Mathlib

/-!
Shallow embedding of the ruffle media-stream core (`src/core/src/streams.rs`).

The embedding follows the source file: `NetStreamData` and its `tick` state
machine, the `StreamManager` play-set operations, and the per-tag dispatch of
audio / video / script / invalid FLV tag payloads.  The FLV container parser
(crate `flv_rs`) and the `swf::VideoCodec` table are code of the repository
that is not under `src/`; those definitions are modelled from the spec and are
marked as such in their doc comments.  Machine floats (`f64` stream times) are
modelled as rationals; byte buffers as lists of naturals.  The injected decode
backend is modelled as a record of pure response functions: the source only
ever inspects the success or failure of each backend call, never backend
state, so every theorem below quantifies over the backend.
-/

namespace RuffleStreams

/-- A byte buffer; bytes are naturals (kept below 256 by the producers). -/
abbrev Bytes := List Nat

/-- Read a byte at an index; positions are always bounds-checked before use. -/
def byteAt (b : Bytes) (i : Nat) : Nat := b.getD i 0

/-- Modelled from the spec: `flv_rs::Error`.  The source distinguishes only
`EndOfData` (insufficient buffered bytes, retried silently) from every other,
logged, parse error, so the model keeps exactly those two classes. -/
inductive FlvError where
  | endOfData
  | corrupt
deriving DecidableEq, Repr

/-- Modelled from the spec: the parsed FLV file header (`flv_rs::Header`).
The source stores it inside `NetStreamType::Flv` and never reads it back. -/
structure FlvHeader where
  version : Nat
  has_audio : Bool
  has_video : Bool
deriving DecidableEq, Repr

/-- The three FLV signature bytes checked by the sniffer in `NetStream::tick`. -/
def flvSignature : Bytes := [0x46, 0x4C, 0x56]

/-- Modelled from the spec: `flv_rs::Header::parse`.  A 3-byte signature, then
version, flags and a 32-bit data offset naming the end of the header; fewer
than 9 bytes is `EndOfData`, a signature or data-offset mismatch is a corrupt
(non-`EndOfData`) error, and success returns the position past the header. -/
def FlvHeader.parse (b : Bytes) (pos : Nat) : Except FlvError (FlvHeader × Nat) :=
  if b.length < pos + 9 then .error .endOfData
  else if (b.drop pos).take 3 ≠ flvSignature then .error .corrupt
  else
    let flags := byteAt b (pos + 4)
    let dataOffset := byteAt b (pos + 5) * 16777216 + byteAt b (pos + 6) * 65536 +
      byteAt b (pos + 7) * 256 + byteAt b (pos + 8)
    if dataOffset < 9 then .error .corrupt
    else .ok (⟨byteAt b (pos + 3), flags / 4 % 2 = 1, flags % 2 = 1⟩, pos + dataOffset)

/-- Modelled from the spec: `flv_rs::VideoPacket` — raw frame data, a command
frame, or one of the AVC packet kinds. -/
inductive FlvVideoPacket where
  | data (bytes : Bytes)
  | commandFrame (command : Nat)
  | avcSequenceHeader (bytes : Bytes)
  | avcNalu (composition_time : Nat) (bytes : Bytes)
  | avcEndOfSequence
deriving DecidableEq, Repr

/-- Modelled from the spec: `flv_rs::VideoData` — frame type, numeric codec id
and the packet payload of a video tag. -/
structure FlvVideoData where
  frame_type : Nat
  codec_id : Nat
  data : FlvVideoPacket
deriving DecidableEq, Repr

/-- Modelled from the spec: `flv_rs::AudioData`.  Only destructured by a stub
in the source, so the exact field split is irrelevant to every claim. -/
structure FlvAudioData where
  format : Nat
  rate : Nat
  size : Nat
  sound_type : Nat
  data : Bytes
deriving DecidableEq, Repr

mutual

/-- Modelled from the spec: `flv_rs::Value` — the named-value payload of a
script tag.  Only the kinds the source inspects are modelled: numbers (the
five metadata fields), and the three aggregate kinds the metadata extractor
accepts; booleans stand in for every other, ignored, kind. -/
inductive FlvValue where
  | number (val : Nat)
  | boolean (val : Bool)
  | object (subvars : List FlvVariable)
  | ecmaArray (subvars : List FlvVariable)
  | strictArray (subvars : List FlvVariable)

/-- Modelled from the spec: `flv_rs::Variable`, a named `FlvValue`. -/
inductive FlvVariable where
  | mk (name : Bytes) (data : FlvValue)

end

/-- The name of an `FlvVariable`. -/
def FlvVariable.name : FlvVariable → Bytes
  | .mk n _ => n

/-- The value of an `FlvVariable`. -/
def FlvVariable.data : FlvVariable → FlvValue
  | .mk _ d => d

/-- Modelled from the spec: `flv_rs::ScriptData`, the variables of one script tag. -/
structure FlvScriptData where
  vars : List FlvVariable

/-- Modelled from the spec: the payload of one parsed FLV tag
(`flv_rs::TagData`).  `invalid` is the variant the source matches at
`FlvTagData::Invalid(e)`: the tag framed correctly (its size was readable) but
its payload failed to parse. -/
inductive FlvTagData where
  | audio (d : FlvAudioData)
  | video (d : FlvVideoData)
  | script (d : FlvScriptData)
  | invalid (e : FlvError)

/-- Modelled from the spec: one parsed FLV tag (`flv_rs::Tag`): a 24-bit
timestamp and a payload. -/
structure FlvTag where
  timestamp : Nat
  data : FlvTagData

/-- Whether a tag payload is video-kind (drives the frame counter). -/
def FlvTagData.isVideo : FlvTagData → Bool
  | .video _ => true
  | _ => false

mutual

/-- Modelled from the spec: script-payload value decoding.  A leading kind
byte (0 number, 1 boolean, 3 object, 8 ECMA array, 10 strict array), then the
body; aggregates carry a length byte and that many variables.  The fuel is a
structural-recursion bound, always called with more fuel than bytes. -/
def parseValue (b : Bytes) : Nat → Nat → Option (FlvValue × Nat)
  | 0, _ => none
  | fuel + 1, pos =>
    if byteAt b pos = 0 then
      if pos + 3 ≤ b.length then
        some (.number (byteAt b (pos + 1) * 256 + byteAt b (pos + 2)), pos + 3)
      else none
    else if byteAt b pos = 1 then
      if pos + 2 ≤ b.length then some (.boolean (byteAt b (pos + 1) ≠ 0), pos + 2)
      else none
    else if byteAt b pos = 3 then
      if pos + 2 ≤ b.length then
        match parseVars b fuel (pos + 2) (byteAt b (pos + 1)) with
        | some (subvars, q) => some (.object subvars, q)
        | none => none
      else none
    else if byteAt b pos = 8 then
      if pos + 2 ≤ b.length then
        match parseVars b fuel (pos + 2) (byteAt b (pos + 1)) with
        | some (subvars, q) => some (.ecmaArray subvars, q)
        | none => none
      else none
    else if byteAt b pos = 10 then
      if pos + 2 ≤ b.length then
        match parseVars b fuel (pos + 2) (byteAt b (pos + 1)) with
        | some (subvars, q) => some (.strictArray subvars, q)
        | none => none
      else none
    else none

/-- Modelled from the spec: decode `count` named variables, each a length
byte, that many name bytes, and a value. -/
def parseVars (b : Bytes) : Nat → Nat → Nat → Option (List FlvVariable × Nat)
  | 0, _, _ => none
  | _ + 1, pos, 0 => some ([], pos)
  | fuel + 1, pos, count + 1 =>
    let nameLen := byteAt b pos
    if pos + 1 + nameLen ≤ b.length then
      match parseValue b fuel (pos + 1 + nameLen) with
      | some (v, q) =>
        match parseVars b fuel q count with
        | some (rest, r) => some (.mk ((b.drop (pos + 1)).take nameLen) v :: rest, r)
        | none => none
      | none => none
    else none

end

/-- Modelled from the spec: audio tag payload decoding — a format byte then
raw sample bytes; an empty payload fails to parse. -/
def parseAudioData (payload : Bytes) : FlvTagData :=
  match payload with
  | [] => .invalid .corrupt
  | b0 :: rest => .audio ⟨b0 / 16, b0 / 4 % 4, b0 / 2 % 2, b0 % 2, rest⟩

/-- Modelled from the spec: video tag payload decoding — a frame-type (high
nibble) / codec-id (low nibble) byte, then the packet.  Frame type 5 is a
command frame, codec 7 carries an AVC packet-type byte, anything else is raw
frame data; an empty or truncated payload fails to parse. -/
def parseVideoData (payload : Bytes) : FlvTagData :=
  match payload with
  | [] => .invalid .corrupt
  | b0 :: rest =>
    let frameType := b0 / 16
    let codecId := b0 % 16
    if frameType = 5 then
      match rest with
      | c :: _ => .video ⟨frameType, codecId, .commandFrame c⟩
      | [] => .invalid .corrupt
    else if codecId = 7 then
      match rest with
      | 0 :: d => .video ⟨frameType, codecId, .avcSequenceHeader d⟩
      | 1 :: c2 :: c1 :: c0 :: d =>
        .video ⟨frameType, codecId, .avcNalu (c2 * 65536 + c1 * 256 + c0) d⟩
      | 2 :: _ => .video ⟨frameType, codecId, .avcEndOfSequence⟩
      | _ => .invalid .corrupt
    else .video ⟨frameType, codecId, .data rest⟩

/-- Modelled from the spec: script tag payload decoding — a variable count
byte then that many named values; a malformed payload fails to parse. -/
def parseScriptData (payload : Bytes) : FlvTagData :=
  match payload with
  | [] => .invalid .corrupt
  | count :: _ =>
    match parseVars payload (payload.length + 1) 1 count with
    | some (vars, _) => .script ⟨vars⟩
    | none => .invalid .corrupt

/-- The 24-bit payload size of the tag at `pos`. -/
def tagSizeAt (b : Bytes) (pos : Nat) : Nat :=
  byteAt b (pos + 1) * 65536 + byteAt b (pos + 2) * 256 + byteAt b (pos + 3)

/-- The 24-bit timestamp of the tag at `pos`. -/
def tagTimestampAt (b : Bytes) (pos : Nat) : Nat :=
  byteAt b (pos + 4) * 65536 + byteAt b (pos + 5) * 256 + byteAt b (pos + 6)

/-- The payload bytes of the tag at `pos`. -/
def tagPayloadAt (b : Bytes) (pos : Nat) : Bytes :=
  (b.drop (pos + 7)).take (tagSizeAt b pos)

/-- Modelled from the spec: `flv_rs::Tag::parse`.  Each tag carries an 8-bit
type code (8 audio, 9 video, 18 script), a 24-bit payload size and a 24-bit
timestamp, then the payload.  A tag whose header or payload extends past the
buffered bytes is `EndOfData` with no position consumed; an unknown type code
is a corrupt (non-`EndOfData`) error; otherwise the tag parses and the new
position is the first byte after the tag, with a payload that fails to decode
recorded as `FlvTagData.invalid` inside a successfully framed tag. -/
def FlvTag.parse (b : Bytes) (pos : Nat) : Except FlvError (FlvTag × Nat) :=
  if b.length < pos + 7 then .error .endOfData
  else if b.length < pos + 7 + tagSizeAt b pos then .error .endOfData
  else if byteAt b pos = 8 then
    .ok (⟨tagTimestampAt b pos, parseAudioData (tagPayloadAt b pos)⟩, pos + 7 + tagSizeAt b pos)
  else if byteAt b pos = 9 then
    .ok (⟨tagTimestampAt b pos, parseVideoData (tagPayloadAt b pos)⟩, pos + 7 + tagSizeAt b pos)
  else if byteAt b pos = 18 then
    .ok (⟨tagTimestampAt b pos, parseScriptData (tagPayloadAt b pos)⟩, pos + 7 + tagSizeAt b pos)
  else .error .corrupt

/-- Modelled from the spec: `swf::VideoCodec`, the known codecs of the
decode-bridge boundary. -/
inductive VideoCodec where
  | sorensonH263
  | screenVideo
  | vp6
  | vp6WithAlpha
  | screenVideoV2
  | h264
deriving DecidableEq, Repr

/-- Modelled from the spec: `swf::VideoCodec::from_u8` — resolve a numeric
codec identifier to a known codec; unknown identifiers resolve to `none`. -/
def VideoCodec.from_u8 (n : Nat) : Option VideoCodec :=
  if n = 2 then some .sorensonH263
  else if n = 3 then some .screenVideo
  else if n = 4 then some .vp6
  else if n = 5 then some .vp6WithAlpha
  else if n = 6 then some .screenVideoV2
  else if n = 7 then some .h264
  else none

/-- Modelled from the spec: `swf::VideoDeblocking`; the source always passes
`UseVideoPacketValue` (defer to per-packet signaling). -/
inductive VideoDeblocking where
  | useVideoPacketValue
deriving DecidableEq, Repr

/-- An abstract backend decode-stream handle (ruffle_video VideoStreamHandle). -/
abbrev VideoStreamHandle := Nat

/-- An abstract decoded picture (ruffle_render BitmapInfo). -/
abbrev BitmapInfo := Nat

/-- An encoded frame submitted to the backend (`ruffle_video::frame::EncodedFrame`). -/
structure EncodedFrame where
  codec : VideoCodec
  data : Bytes
  frame_id : Nat
deriving DecidableEq, Repr

/-- The injected decode backend (`context.video`), modelled as pure response
functions; `none` is the error outcome, which the source only logs. -/
structure VideoBackend where
  register_video_stream :
    Nat → Nat × Nat → VideoCodec → VideoDeblocking → Option VideoStreamHandle
  preload_video_stream_frame : VideoStreamHandle → EncodedFrame → Option Unit
  decode_video_stream_frame : VideoStreamHandle → EncodedFrame → Option BitmapInfo

/-- Source type NetStreamType: the one recognized variant, an FLV with its
parsed header, the optional registered backend handle, and the per-stream
frame counter. -/
inductive NetStreamType where
  | flv (header : FlvHeader) (stream : Option VideoStreamHandle) (frame_id : Nat)
deriving DecidableEq, Repr

/-- Source type NetStreamData: buffer, the two cursors, the sniffed
format, the stream clock and the last decoded bitmap. -/
structure NetStreamData where
  buffer : Bytes
  offset : Nat
  preload_offset : Nat
  stream_type : Option NetStreamType
  stream_time : ℚ
  last_decoded_bitmap : Option BitmapInfo

/-- Source constructor NetStream::new: the empty stream state. -/
def NetStream.new : NetStreamData :=
  { buffer := [], offset := 0, preload_offset := 0, stream_type := none,
    stream_time := 0, last_decoded_bitmap := none }

/-- Source method NetStream::load_buffer: append-only buffer growth. -/
def NetStream.load_buffer (s : NetStreamData) (data : Bytes) : NetStreamData :=
  { s with buffer := s.buffer ++ data }

/-- The byte name onMetaData matched by the metadata extractor. -/
def onMetaDataName : Bytes := [111, 110, 77, 101, 116, 97, 68, 97, 116, 97]

/-- The byte name width. -/
def widthName : Bytes := [119, 105, 100, 116, 104]

/-- The byte name height. -/
def heightName : Bytes := [104, 101, 105, 103, 104, 116]

/-- The byte name videocodecid. -/
def videocodecidName : Bytes := [118, 105, 100, 101, 111, 99, 111, 100, 101, 99, 105, 100]

/-- The byte name framerate. -/
def framerateName : Bytes := [102, 114, 97, 109, 101, 114, 97, 116, 101]

/-- The byte name duration. -/
def durationName : Bytes := [100, 117, 114, 97, 116, 105, 111, 110]

/-- The five optional numeric metadata fields collected by the script-tag arm
of `NetStream::tick`. -/
structure MetaFields where
  width : Option Nat := none
  height : Option Nat := none
  video_codec_id : Option Nat := none
  frame_rate : Option Nat := none
  duration : Option Nat := none
deriving DecidableEq, Repr

/-- One step of the sub-variable scan: a numeric field whose name matches one
of the five well-known names updates that field (later records win). -/
def updateMetaField (acc : MetaFields) (subvar : FlvVariable) : MetaFields :=
  match subvar.data with
  | .number val =>
    if subvar.name = widthName then { acc with width := some val }
    else if subvar.name = heightName then { acc with height := some val }
    else if subvar.name = videocodecidName then { acc with video_codec_id := some val }
    else if subvar.name = framerateName then { acc with frame_rate := some val }
    else if subvar.name = durationName then { acc with duration := some val }
    else acc
  | _ => acc

/-- The variable scan of the script-tag arm: for each variable named
`onMetaData`, and only while no backend stream is registered yet
(`hasStream = false`), collect numeric sub-fields from an object/array value;
every other variable is a logged stub with no state effect. -/
def collectMeta (hasStream : Bool) (vars : List FlvVariable) : MetaFields :=
  vars.foldl
    (fun acc var =>
      if var.name = onMetaDataName ∧ hasStream = false then
        match var.data with
        | .object subvars => subvars.foldl updateMetaField acc
        | .ecmaArray subvars => subvars.foldl updateMetaField acc
        | .strictArray subvars => subvars.foldl updateMetaField acc
        | _ => acc
      else acc)
    {}

/-- The decode bridge for one video tag: when a backend handle is registered,
the codec id resolves and the packet is raw frame data, submit the encoded
frame (at the current frame counter) to the backend's playback-decode call
and keep the returned picture; every other case — no handle, unknown codec,
non-data packet, or a failed decode — is logged in the source and leaves the
bitmap unchanged.  The one-time preload submission guarded by
`needs_preload` in the source only logs its own failure and never touches
stream state, so it has no footprint in the state model. -/
def decodeVideoTag (env : VideoBackend) (st : Option NetStreamType)
    (bmp : Option BitmapInfo) (vd : FlvVideoData) : Option BitmapInfo :=
  let handleAndFrame : Option VideoStreamHandle × Nat :=
    match st with
    | some (.flv _ stream fid) => (stream, fid)
    | _ => (none, 0)
  match handleAndFrame.1, VideoCodec.from_u8 (vd.codec_id % 256), vd.data with
  | some h, some c, .data bytes =>
    match env.decode_video_stream_frame h ⟨c, bytes, handleAndFrame.2⟩ with
    | some pic => some pic
    | none => bmp
  | _, _, _ => bmp

/-- The unconditional frame-counter bump at the end of the video-tag arm. -/
def bumpFrame (st : Option NetStreamType) : Option NetStreamType :=
  match st with
  | some (.flv hdr stream fid) => some (.flv hdr stream (fid + 1))
  | o => o

/-- The registration step of the metadata extractor: with all five numeric
fields present, resolve the codec and request one backend stream
(`frame_rate * duration` frames, the given dimensions, deferred deblocking);
on success store the handle, on any failure (unknown codec id or backend
error) log and leave the stream type unchanged. -/
def registerFromMeta (env : VideoBackend) (st : Option NetStreamType)
    (m : MetaFields) : Option NetStreamType :=
  match m.width, m.height, m.video_codec_id, m.frame_rate, m.duration with
  | some w, some hgt, some vci, some fr, some dur =>
    match VideoCodec.from_u8 (vci % 256) with
    | some vc =>
      match env.register_video_stream (fr * dur) (w % 65536, hgt % 65536) vc
          .useVideoPacketValue with
      | some handle =>
        match st with
        | some (.flv hdr _ fid) => some (.flv hdr (some handle) fid)
        | o => o
      | none => st
    | none => st
  | _, _, _, _, _ => st

/-- Whether a backend decode stream is registered (`stream.is_some()`). -/
def hasStream (st : Option NetStreamType) : Bool :=
  match st with
  | some (.flv _ stream _) => stream.isSome
  | _ => false

/-- The per-tag dispatch of `NetStream::tick`, acting on the only two pieces
of stream state a tag handler mutates: the stream type (frame counter and
registered handle) and the last decoded bitmap.  Audio tags and invalid
payloads are logged stubs; video tags bridge to the backend and always bump
the frame counter; script tags run the metadata extractor and, only when the
tag reaches bytes past the preload high-water mark, may register the backend
stream. -/
def dispatchTag (env : VideoBackend) (st : Option NetStreamType)
    (bmp : Option BitmapInfo) (tag : FlvTag) (needsPreload : Bool) :
    Option NetStreamType × Option BitmapInfo :=
  match tag.data with
  | .audio _ => (st, bmp)
  | .video vd => (bumpFrame st, decodeVideoTag env st bmp vd)
  | .script sd =>
    let m := collectMeta (hasStream st) sd.vars
    (if needsPreload then registerFromMeta env st m else st, bmp)
  | .invalid _ => (st, bmp)

/-- The tag loop of `NetStream::tick`, fuel-indexed so that it computes.
Every call supplies fuel exceeding the number of unread buffered bytes, and
each successful tag parse consumes at least 7 bytes, so the fuel never runs
out before the loop's own stopping conditions (`tagLoopF_fuel_stable`).  One
iteration parses the tag at `offset`, stops on a parse error, stops before a
tag whose timestamp has reached `endTime`, and otherwise dispatches the tag
and advances `offset` and the `preload_offset` high-water mark past it. -/
def tagLoopF (env : VideoBackend) (endTime : ℚ) : Nat → NetStreamData → NetStreamData
  | 0, s => s
  | fuel + 1, s =>
    match FlvTag.parse s.buffer s.offset with
    | .error _ => s
    | .ok (tag, newPos) =>
      if (tag.timestamp : ℚ) ≥ endTime then s
      else
        let r := dispatchTag env s.stream_type s.last_decoded_bitmap tag
          (decide (s.preload_offset ≤ newPos))
        tagLoopF env endTime fuel
          { s with stream_type := r.1, last_decoded_bitmap := r.2,
                   offset := newPos, preload_offset := max newPos s.preload_offset }

/-- Source method NetStream::tick: sniff the container format while unknown (with the
sticky `preload_offset` failure sentinel), then run the tag loop up to the
horizon `stream_time + dt`. -/
def NetStream.tick (env : VideoBackend) (s : NetStreamData) (dt : ℚ) : NetStreamData :=
  match s.stream_type with
  | none =>
    if s.preload_offset > 0 then s
    else if s.buffer.length < 3 then s
    else if s.buffer.take 3 = flvSignature then
      match FlvHeader.parse s.buffer s.offset with
      | .ok (header, pos) =>
        let s2 : NetStreamData :=
          { s with offset := pos, preload_offset := pos,
                   stream_type := some (.flv header none 0) }
        tagLoopF env (s2.stream_time + dt) (s2.buffer.length - s2.offset + 1) s2
      | .error .endOfData => s
      | .error .corrupt => { s with preload_offset := 3 }
    else { s with preload_offset := 3 }
  | some _ => tagLoopF env (s.stream_time + dt) (s.buffer.length - s.offset + 1) s

/-- The pure trace of tags one `tick` consumes: parse from `pos`, stop on a
parse error or at the first tag whose timestamp reaches `endTime`.  Consuming
a tag never depends on dispatch (dispatch touches neither buffer nor cursor),
so this is a function of the buffer alone. -/
def consumedTagsF (b : Bytes) (endTime : ℚ) : Nat → Nat → List FlvTag
  | 0, _ => []
  | fuel + 1, pos =>
    match FlvTag.parse b pos with
    | .error _ => []
    | .ok (tag, newPos) =>
      if (tag.timestamp : ℚ) ≥ endTime then []
      else tag :: consumedTagsF b endTime fuel newPos

/-- The number of video-kind tags in a tag list. -/
def countVideoTags (l : List FlvTag) : Nat := l.countP (fun tg => tg.data.isVideo)

/-- Source method StreamManager::ensure_playing: push onto the play list if absent. -/
def StreamManager.ensure_playing (l : List Nat) (s : Nat) : List Nat :=
  if s ∈ l then l else l ++ [s]

/-- Source method StreamManager::ensure_paused: remove the first occurrence if present. -/
def StreamManager.ensure_paused (l : List Nat) (s : Nat) : List Nat :=
  l.erase s

/-- Source method StreamManager::toggle_paused: remove the first occurrence if present,
else push. -/
def StreamManager.toggle_paused (l : List Nat) (s : Nat) : List Nat :=
  if s ∈ l then l.erase s else l ++ [s]

/-- One stream plus the manager's play list, for lifecycle-level claims. -/
structure StreamWorld where
  data : NetStreamData
  playing : List Nat

/-- The public operations on one stream.  `play` also spawns a loader request
in the source; the bytes it later delivers arrive as separate `loadBuffer`
operations, and `play` itself marks the stream playing regardless. -/
inductive StreamOp where
  | loadBuffer (data : Bytes)
  | tick (env : VideoBackend) (dt : ℚ)
  | play
  | pause
  | resume
  | togglePaused

/-- Apply one public operation to the world of the stream with identity `sid`. -/
def applyOp (sid : Nat) (w : StreamWorld) (op : StreamOp) : StreamWorld :=
  match op with
  | .loadBuffer d => { w with data := NetStream.load_buffer w.data d }
  | .tick env dt => { w with data := NetStream.tick env w.data dt }
  | .play => { w with playing := StreamManager.ensure_playing w.playing sid }
  | .pause => { w with playing := StreamManager.ensure_paused w.playing sid }
  | .resume => { w with playing := StreamManager.ensure_playing w.playing sid }
  | .togglePaused => { w with playing := StreamManager.toggle_paused w.playing sid }

/-- Run a sequence of ticks (backend and delta per tick). -/
def runTicks (s : NetStreamData) (ticks : List (VideoBackend × ℚ)) : NetStreamData :=
  ticks.foldl (fun st p => NetStream.tick p.1 st p.2) s

/-- A successful tag parse strictly advances the position and stays within
the buffer. -/
theorem FlvTag.parse_ok_bounds {b : Bytes} {pos : Nat} {tag : FlvTag} {np : Nat}
    (h : FlvTag.parse b pos = .ok (tag, np)) : pos < np ∧ np ≤ b.length := by
  unfold FlvTag.parse at h
  split_ifs at h with h1 h2 h3 h4 h5 <;> cases h <;> exact ⟨by omega, by omega⟩

/-- Computation of bumpFrame on the FLV variant. -/
theorem bumpFrame_flv (hdr : FlvHeader) (str : Option VideoStreamHandle) (fid : Nat) :
    bumpFrame (some (.flv hdr str fid)) = some (.flv hdr str (fid + 1)) := rfl

/-- Registration via registerFromMeta preserves the FLV header and the frame counter; only
the registered handle can change. -/
theorem registerFromMeta_flv (env : VideoBackend) (hdr : FlvHeader)
    (str : Option VideoStreamHandle) (fid : Nat) (m : MetaFields) :
    ∃ str2, registerFromMeta env (some (.flv hdr str fid)) m
      = some (.flv hdr str2 fid) := by
  unfold registerFromMeta
  split
  next w hgt vci fr dur _ _ _ _ _ =>
    split
    next vc _ =>
      split
      next handle _ => exact ⟨some handle, rfl⟩
      next => exact ⟨str, rfl⟩
    next => exact ⟨str, rfl⟩
  next => exact ⟨str, rfl⟩

/-- With a backend stream already registered, the variable scan collects
nothing: every metadata record is ignored once registration happened. -/
theorem collectMeta_hasStream (vars : List FlvVariable) :
    collectMeta true vars = {} := by
  unfold collectMeta
  induction vars with
  | nil => rfl
  | cons v rest ih => simp

/-- With no metadata fields collected, `registerFromMeta` changes nothing. -/
theorem registerFromMeta_empty (env : VideoBackend) (st : Option NetStreamType) :
    registerFromMeta env st {} = st := rfl

/-- Dispatching any tag on the FLV variant keeps the FLV variant and its
header, and adds exactly one to the frame counter exactly when the tag is
video-kind. -/
theorem dispatchTag_flv (env : VideoBackend) (hdr : FlvHeader)
    (str : Option VideoStreamHandle) (fid : Nat) (bmp : Option BitmapInfo)
    (tag : FlvTag) (np : Bool) :
    ∃ str2 bmp2, dispatchTag env (some (.flv hdr str fid)) bmp tag np
      = (some (.flv hdr str2 (fid + (if tag.data.isVideo then 1 else 0))), bmp2) := by
  obtain ⟨ts, data⟩ := tag
  cases data with
  | audio a => exact ⟨str, bmp, rfl⟩
  | video vd =>
    exact ⟨str, decodeVideoTag env (some (.flv hdr str fid)) bmp vd, rfl⟩
  | script sd =>
    simp only [dispatchTag, FlvTagData.isVideo]
    rcases np with _ | _
    · exact ⟨str, bmp, by simp⟩
    · obtain ⟨str2, h2⟩ := registerFromMeta_flv env hdr str fid
        (collectMeta (hasStream (some (.flv hdr str fid))) sd.vars)
      exact ⟨str2, bmp, by simp [h2]⟩
  | invalid e => exact ⟨str, bmp, rfl⟩

/-- Once a handle is registered, no dispatch ever changes it: video tags only
bump the counter, and the metadata extractor is disabled by
`has_stream_already`. -/
theorem dispatchTag_handle (env : VideoBackend) (hdr : FlvHeader)
    (h : VideoStreamHandle) (fid : Nat) (bmp : Option BitmapInfo)
    (tag : FlvTag) (np : Bool) :
    ∃ fid2 bmp2, dispatchTag env (some (.flv hdr (some h) fid)) bmp tag np
      = (some (.flv hdr (some h) fid2), bmp2) := by
  obtain ⟨ts, data⟩ := tag
  cases data with
  | audio a => exact ⟨fid, bmp, rfl⟩
  | video vd =>
    exact ⟨fid + 1, decodeVideoTag env (some (.flv hdr (some h) fid)) bmp vd, rfl⟩
  | script sd =>
    have hs : hasStream (some (.flv hdr (some h) fid)) = true := rfl
    simp only [dispatchTag, hs, collectMeta_hasStream, registerFromMeta_empty]
    rcases np with _ | _
    · exact ⟨fid, bmp, by simp⟩
    · exact ⟨fid, bmp, by simp⟩
  | invalid e => exact ⟨fid, bmp, rfl⟩

/-- The tag loop never touches the buffer. -/
theorem tagLoopF_buffer (env : VideoBackend) (t : ℚ) (fuel : Nat) (s : NetStreamData) :
    (tagLoopF env t fuel s).buffer = s.buffer := by
  induction fuel generalizing s with
  | zero => rfl
  | succ fuel ih =>
    rw [tagLoopF]
    cases hp : FlvTag.parse s.buffer s.offset with
    | error e => rfl
    | ok p =>
      obtain ⟨tag, npos⟩ := p
      dsimp only
      split_ifs with hts
      · rfl
      · exact ih _

/-- The tag loop never touches the stream clock. -/
theorem tagLoopF_stream_time (env : VideoBackend) (t : ℚ) (fuel : Nat) (s : NetStreamData) :
    (tagLoopF env t fuel s).stream_time = s.stream_time := by
  induction fuel generalizing s with
  | zero => rfl
  | succ fuel ih =>
    rw [tagLoopF]
    cases hp : FlvTag.parse s.buffer s.offset with
    | error e => rfl
    | ok p =>
      obtain ⟨tag, npos⟩ := p
      dsimp only
      split_ifs with hts
      · rfl
      · simpa using ih _

/-- The playback cursor never moves backward within one tag loop. -/
theorem tagLoopF_offset_mono (env : VideoBackend) (t : ℚ) (fuel : Nat) (s : NetStreamData) :
    s.offset ≤ (tagLoopF env t fuel s).offset := by
  induction fuel generalizing s with
  | zero => exact le_refl _
  | succ fuel ih =>
    rw [tagLoopF]
    cases hp : FlvTag.parse s.buffer s.offset with
    | error e => exact le_refl _
    | ok p =>
      obtain ⟨tag, npos⟩ := p
      dsimp only
      split_ifs with hts
      · exact le_refl _
      · have hb := (FlvTag.parse_ok_bounds hp).1
        have := ih { s with
          stream_type := (dispatchTag env s.stream_type s.last_decoded_bitmap tag
            (decide (s.preload_offset ≤ npos))).1,
          last_decoded_bitmap := (dispatchTag env s.stream_type s.last_decoded_bitmap tag
            (decide (s.preload_offset ≤ npos))).2,
          offset := npos, preload_offset := max npos s.preload_offset }
        simp only at this
        omega

/-- The preload high-water mark never decreases within one tag loop. -/
theorem tagLoopF_preload_mono (env : VideoBackend) (t : ℚ) (fuel : Nat) (s : NetStreamData) :
    s.preload_offset ≤ (tagLoopF env t fuel s).preload_offset := by
  induction fuel generalizing s with
  | zero => exact le_refl _
  | succ fuel ih =>
    rw [tagLoopF]
    cases hp : FlvTag.parse s.buffer s.offset with
    | error e => exact le_refl _
    | ok p =>
      obtain ⟨tag, npos⟩ := p
      dsimp only
      split_ifs with hts
      · exact le_refl _
      · have := ih { s with
          stream_type := (dispatchTag env s.stream_type s.last_decoded_bitmap tag
            (decide (s.preload_offset ≤ npos))).1,
          last_decoded_bitmap := (dispatchTag env s.stream_type s.last_decoded_bitmap tag
            (decide (s.preload_offset ≤ npos))).2,
          offset := npos, preload_offset := max npos s.preload_offset }
        simp only at this
        omega

/-- Counting video tags through a cons. -/
theorem countVideoTags_cons (tag : FlvTag) (l : List FlvTag) :
    countVideoTags (tag :: l)
      = countVideoTags l + (if tag.data.isVideo then 1 else 0) := by
  simp [countVideoTags, List.countP_cons]

/-- Through the whole tag loop, the frame counter grows by exactly the number
of video-kind tags among the consumed tags, whatever the backend answers and
whether or not decodes succeed; the FLV header is untouched. -/
theorem tagLoopF_frame (env : VideoBackend) (t : ℚ) (fuel : Nat) (s : NetStreamData)
    (hdr : FlvHeader) (str : Option VideoStreamHandle) (fid : Nat)
    (h : s.stream_type = some (.flv hdr str fid)) :
    ∃ str2, (tagLoopF env t fuel s).stream_type
      = some (.flv hdr str2
          (fid + countVideoTags (consumedTagsF s.buffer t fuel s.offset))) := by
  induction fuel generalizing s str fid with
  | zero => exact ⟨str, by simp [tagLoopF, consumedTagsF, countVideoTags, h]⟩
  | succ fuel ih =>
    rw [tagLoopF, consumedTagsF]
    cases hp : FlvTag.parse s.buffer s.offset with
    | error e => exact ⟨str, by simp [countVideoTags, h]⟩
    | ok p =>
      obtain ⟨tag, npos⟩ := p
      dsimp only
      split_ifs with hts
      · exact ⟨str, by simp [countVideoTags, h]⟩
      · rw [h]
        obtain ⟨str', bmp', hd⟩ := dispatchTag_flv env hdr str fid
          s.last_decoded_bitmap tag (decide (s.preload_offset ≤ npos))
        rw [hd]
        have harith : fid + countVideoTags (tag :: consumedTagsF s.buffer t fuel npos)
            = (fid + (if tag.data.isVideo then 1 else 0))
              + countVideoTags (consumedTagsF s.buffer t fuel npos) := by
          rw [countVideoTags_cons]; omega
        rw [harith]
        exact ih _ str' (fid + (if tag.data.isVideo then 1 else 0)) rfl

/-- Through the whole tag loop, a registered handle is never replaced or
cleared, whatever metadata or video tags are consumed and whatever the
backend would answer to a (never issued) second registration. -/
theorem tagLoopF_handle (env : VideoBackend) (t : ℚ) (fuel : Nat) (s : NetStreamData)
    (hdr : FlvHeader) (h : VideoStreamHandle) (fid : Nat)
    (hty : s.stream_type = some (.flv hdr (some h) fid)) :
    ∃ fid2, (tagLoopF env t fuel s).stream_type = some (.flv hdr (some h) fid2) := by
  induction fuel generalizing s fid with
  | zero => exact ⟨fid, by simp [tagLoopF, hty]⟩
  | succ fuel ih =>
    rw [tagLoopF]
    cases hp : FlvTag.parse s.buffer s.offset with
    | error e => exact ⟨fid, by simp [hty]⟩
    | ok p =>
      obtain ⟨tag, npos⟩ := p
      dsimp only
      split_ifs with hts
      · exact ⟨fid, by simp [hty]⟩
      · rw [hty]
        obtain ⟨fid2, bmp', hd⟩ := dispatchTag_handle env hdr h fid
          s.last_decoded_bitmap tag (decide (s.preload_offset ≤ npos))
        rw [hd]
        exact ih _ fid2 rfl

/-- A tick never modifies the stream clock. -/
theorem tick_stream_time (env : VideoBackend) (s : NetStreamData) (dt : ℚ) :
    (NetStream.tick env s dt).stream_time = s.stream_time := by
  unfold NetStream.tick
  cases hst : s.stream_type with
  | some st => exact tagLoopF_stream_time ..
  | none =>
    dsimp only
    split_ifs with h1 h2 h3
    · rfl
    · rfl
    · cases hh : FlvHeader.parse s.buffer s.offset with
      | ok p => obtain ⟨header, pos⟩ := p; exact tagLoopF_stream_time ..
      | error e => cases e <;> rfl
    · rfl

/-- A tick never decreases the preload high-water mark. -/
theorem tick_preload_mono (env : VideoBackend) (s : NetStreamData) (dt : ℚ) :
    s.preload_offset ≤ (NetStream.tick env s dt).preload_offset := by
  unfold NetStream.tick
  cases hst : s.stream_type with
  | some st => exact tagLoopF_preload_mono ..
  | none =>
    dsimp only
    split_ifs with h1 h2 h3
    · exact le_refl _
    · exact le_refl _
    · cases hh : FlvHeader.parse s.buffer s.offset with
      | ok p =>
        obtain ⟨header, pos⟩ := p
        have h0 : s.preload_offset = 0 := by omega
        have := tagLoopF_preload_mono env (s.stream_time + dt)
          (s.buffer.length - pos + 1)
          { s with offset := pos, preload_offset := pos,
                   stream_type := some (.flv header none 0) }
        simp only at this
        omega
      | error e =>
        cases e
        · simp
        · simp
          omega
    · simp; omega

/-- The frame counter of a sniffed stream type, when it is the FLV variant. -/
def ntFrame : Option NetStreamType → Option Nat
  | some (.flv _ _ fid) => some fid
  | none => none

/-- The registered backend handle of a sniffed stream type. -/
def ntHandle : Option NetStreamType → Option VideoStreamHandle
  | some (.flv _ stream _) => stream
  | none => none

/-- A backend whose every call fails (all responses `none`). -/
def envFail : VideoBackend :=
  ⟨fun _ _ _ _ => none, fun _ _ => none, fun _ _ => none⟩

/-- A backend whose every call succeeds (handle 7, picture 1). -/
def envOk : VideoBackend :=
  ⟨fun _ _ _ _ => some 7, fun _ _ => some (), fun _ _ => some 1⟩

/-- A parsed FLV header fixture. -/
def hdr1 : FlvHeader := ⟨1, false, true⟩

/-- A sniffed stream holding two minimal video tags (codec 2, timestamp 0). -/
def sVideo2 : NetStreamData :=
  { buffer := [9, 0, 0, 1, 0, 0, 0, 18, 9, 0, 0, 1, 0, 0, 0, 18],
    offset := 0, preload_offset := 0,
    stream_type := some (.flv hdr1 none 0), stream_time := 0,
    last_decoded_bitmap := none }

/-- A sniffed stream holding one video tag with timestamp 5. -/
def sDefer : NetStreamData :=
  { buffer := [9, 0, 0, 1, 0, 0, 5, 18], offset := 0, preload_offset := 0,
    stream_type := some (.flv hdr1 none 0), stream_time := 0,
    last_decoded_bitmap := none }

/-- A full `onMetaData` script payload: one variable named `onMetaData`
holding an object with all five numeric fields. -/
def metaPayload : Bytes :=
  [1, 10] ++ onMetaDataName ++ [3, 5]
    ++ [5] ++ widthName ++ [0, 0, 100]
    ++ [6] ++ heightName ++ [0, 0, 50]
    ++ [12] ++ videocodecidName ++ [0, 0, 2]
    ++ [9] ++ framerateName ++ [0, 0, 30]
    ++ [8] ++ durationName ++ [0, 0, 10]

/-- A sniffed stream with handle 42 already registered whose buffer holds a
complete metadata tag with all five numeric fields. -/
def sMeta : NetStreamData :=
  { buffer := [18, 0, 0, 74, 0, 0, 0] ++ metaPayload,
    offset := 0, preload_offset := 0,
    stream_type := some (.flv hdr1 (some 42) 0), stream_time := 0,
    last_decoded_bitmap := none }

/-- An unsniffed stream whose first three bytes are not the FLV signature. -/
def sBadSig : NetStreamData :=
  { NetStream.new with buffer := [0x46, 0x4C, 0x46] }

/-- An unsniffed stream with fewer than three buffered bytes. -/
def sTiny : NetStreamData :=
  { NetStream.new with buffer := [0x46] }

/-- A sniffed stream whose buffer holds one video tag with an empty payload:
the tag frames correctly but its payload fails to parse
(`FlvTagData.invalid`). -/
def sInvalidTag : NetStreamData :=
  { buffer := [9, 0, 0, 0, 0, 0, 0], offset := 0, preload_offset := 0,
    stream_type := some (.flv hdr1 none 0), stream_time := 0,
    last_decoded_bitmap := none }

/-- A sniffed stream whose buffer is too short for a whole tag. -/
def sShort : NetStreamData :=
  { sInvalidTag with buffer := [9, 0, 0] }

/-- C1: on an FLV stream, every processed video tag bumps the frame counter
by exactly one — whatever the backend answers and however decodes fail or
are skipped — so one tick adds exactly the number of video-kind tags it
consumes to the counter. -/
theorem frame_counter_adds_video_count (env : VideoBackend) (s : NetStreamData)
    (dt : ℚ) (hdr : FlvHeader) (str : Option VideoStreamHandle) (fid : Nat)
    (h : s.stream_type = some (.flv hdr str fid)) :
    ntFrame (NetStream.tick env s dt).stream_type
      = some (fid + countVideoTags (consumedTagsF s.buffer (s.stream_time + dt)
          (s.buffer.length - s.offset + 1) s.offset)) := by
  unfold NetStream.tick
  rw [h]
  obtain ⟨str2, h2⟩ := tagLoopF_frame env (s.stream_time + dt)
    (s.buffer.length - s.offset + 1) s hdr str fid h
  rw [h2]
  rfl

/-- C1 witness: a stream with two buffered video tags. -/
theorem frame_counter_adds_video_count_witness :
    ntFrame (NetStream.tick envFail sVideo2 1).stream_type
      = some (0 + countVideoTags (consumedTagsF sVideo2.buffer (sVideo2.stream_time + 1)
          (sVideo2.buffer.length - sVideo2.offset + 1) sVideo2.offset)) :=
  frame_counter_adds_video_count envFail sVideo2 1 hdr1 none 0 rfl

/-- C3: once a backend decode stream is registered (the FLV handle is set),
one whole tick — whatever metadata records, including complete five-field
ones, its tag loop consumes, and whatever the backend would answer — leaves
the stored handle unchanged; in particular no later metadata record
re-registers. -/
theorem register_at_most_once (env : VideoBackend) (s : NetStreamData) (dt : ℚ)
    (hdr : FlvHeader) (h : VideoStreamHandle) (fid : Nat)
    (hty : s.stream_type = some (.flv hdr (some h) fid)) :
    ntHandle (NetStream.tick env s dt).stream_type = some h := by
  unfold NetStream.tick
  rw [hty]
  obtain ⟨fid2, h2⟩ := tagLoopF_handle env (s.stream_time + dt)
    (s.buffer.length - s.offset + 1) s hdr h fid hty
  rw [h2]
  rfl

/-- C3 witness: handle 42 is registered and the buffer holds a complete
five-field metadata tag; the backend would happily hand out handle 7, yet
the stored handle stays 42. -/
theorem register_at_most_once_witness :
    ntHandle (NetStream.tick envOk sMeta 1).stream_type = some 42 :=
  register_at_most_once envOk sMeta 1 hdr1 42 0 rfl

/-- C5: across any sequence of public operations (buffer loads, ticks, play,
pause, resume, toggle), the preload high-water mark never decreases. -/
theorem preload_offset_monotone (sid : Nat) (w : StreamWorld) (ops : List StreamOp) :
    w.data.preload_offset ≤ ((ops.foldl (applyOp sid) w).data).preload_offset := by
  induction ops generalizing w with
  | nil => exact le_refl _
  | cons op rest ih =>
    refine le_trans ?_ (ih (applyOp sid w op))
    cases op with
    | loadBuffer d => exact le_refl _
    | tick env dt => exact tick_preload_mono env w.data dt
    | play => exact le_refl _
    | pause => exact le_refl _
    | resume => exact le_refl _
    | togglePaused => exact le_refl _

/-- C9: with no sniffed format and fewer than three buffered bytes, a tick
changes nothing at all; sniffing is simply retried next tick. -/
theorem tiny_buffer_tick_noop (env : VideoBackend) (s : NetStreamData) (dt : ℚ)
    (hty : s.stream_type = none) (hlen : s.buffer.length < 3) :
    NetStream.tick env s dt = s := by
  unfold NetStream.tick
  rw [hty]
  dsimp only
  by_cases h1 : s.preload_offset > 0
  · rw [if_pos h1]
  · rw [if_neg h1, if_pos hlen]

/-- C9 witness: one buffered byte. -/
theorem tiny_buffer_tick_noop_witness : NetStream.tick envFail sTiny 1 = sTiny :=
  tiny_buffer_tick_noop envFail sTiny 1 rfl (by norm_num [sTiny, NetStream.new])

/-- C10: no tick ever modifies `stream_time`; from the initial clock 0 any
tick sequence keeps it at 0, so each tick's horizon is `0 + dt`, never
accumulated. -/
theorem stream_time_constant :
    (∀ env s dt, (NetStream.tick env s dt).stream_time = s.stream_time) ∧
    (∀ s ticks, s.stream_time = 0 → (runTicks s ticks).stream_time = 0) := by
  refine ⟨tick_stream_time, ?_⟩
  intro s ticks
  induction ticks generalizing s with
  | nil => exact fun h => h
  | cons p rest ih => exact fun h => ih _ ((tick_stream_time p.1 s p.2).trans h)

/-- C10 witness: a fresh stream ticked once keeps clock 0. -/
theorem stream_time_constant_witness :
    (runTicks NetStream.new [(envFail, 1)]).stream_time = 0 :=
  stream_time_constant.2 NetStream.new [(envFail, 1)] rfl

/-- C2: when the first tag parsed in a tick has a timestamp at or past the
horizon `stream_time + dt`, the tick consumes nothing (the whole state, in
particular both cursors, is exactly as before); re-running `tick` therefore
replays identically, and any tick whose horizon does cover the tag's
timestamp consumes that exact tag (the cursor moves at least past it),
dispatching it exactly as a first-attempt consumption would. -/
theorem deferred_tag_replay (env : VideoBackend) (s : NetStreamData) (dt : ℚ)
    (st : NetStreamType) (tag : FlvTag) (np : Nat)
    (hty : s.stream_type = some st)
    (hp : FlvTag.parse s.buffer s.offset = .ok (tag, np))
    (hts : (tag.timestamp : ℚ) ≥ s.stream_time + dt) :
    NetStream.tick env s dt = s ∧
    (∀ dt2, NetStream.tick env (NetStream.tick env s dt) dt2 = NetStream.tick env s dt2) ∧
    (∀ dt2, (tag.timestamp : ℚ) < s.stream_time + dt2 →
      np ≤ (NetStream.tick env s dt2).offset) := by
  have h1 : NetStream.tick env s dt = s := by
    unfold NetStream.tick
    rw [hty]
    dsimp only
    rw [tagLoopF, hp]
    dsimp only
    rw [if_pos hts]
  refine ⟨h1, fun dt2 => by rw [h1], fun dt2 hlt => ?_⟩
  unfold NetStream.tick
  rw [hty]
  dsimp only
  rw [tagLoopF, hp]
  dsimp only
  rw [if_neg (not_le.mpr hlt)]
  exact tagLoopF_offset_mono env (s.stream_time + dt2) (s.buffer.length - s.offset)
    { s with
      stream_type := (dispatchTag env s.stream_type s.last_decoded_bitmap tag
        (decide (s.preload_offset ≤ np))).1,
      last_decoded_bitmap := (dispatchTag env s.stream_type s.last_decoded_bitmap tag
        (decide (s.preload_offset ≤ np))).2,
      offset := np, preload_offset := max np s.preload_offset }

/-- C2 witness: one buffered video tag with timestamp 5; a tick with horizon
1 defers it unchanged, replays identically, and a tick with horizon 10
consumes it. -/
theorem deferred_tag_replay_witness :
    NetStream.tick envFail sDefer 1 = sDefer ∧
    NetStream.tick envFail (NetStream.tick envFail sDefer 1) 10
      = NetStream.tick envFail sDefer 10 ∧
    8 ≤ (NetStream.tick envFail sDefer 10).offset := by
  obtain ⟨h1, h2, h3⟩ := deferred_tag_replay envFail sDefer 1 (.flv hdr1 none 0)
    ⟨5, .video ⟨1, 2, .data []⟩⟩ 8 rfl rfl (by norm_num [sDefer])
  exact ⟨h1, h2 10, h3 10 (by norm_num [sDefer])⟩

/-- C4: an unsniffed stream whose first three bytes are not the FLV signature
gets the permanent sentinel `preload_offset = 3` in one tick, and from then
on every tick — under any backend, any delta, and arbitrarily many appended
bytes — returns with the entire state (cursors, format, clock, picture)
unchanged: the stream is never sniffed again. -/
theorem bad_signature_sticky (env : VideoBackend) (s : NetStreamData) (dt : ℚ)
    (hty : s.stream_type = none) (hp0 : s.preload_offset = 0)
    (hlen : 3 ≤ s.buffer.length) (hsig : s.buffer.take 3 ≠ flvSignature) :
    NetStream.tick env s dt = { s with preload_offset := 3 } ∧
    ∀ env2 dt2 extra,
      NetStream.tick env2 { s with preload_offset := 3, buffer := s.buffer ++ extra } dt2
        = { s with preload_offset := 3, buffer := s.buffer ++ extra } := by
  constructor
  · unfold NetStream.tick
    rw [hty]
    dsimp only
    rw [if_neg (by omega), if_neg (by omega), if_neg hsig]
  · intro env2 dt2 extra
    unfold NetStream.tick
    dsimp only
    rw [hty]
    dsimp only
    rw [if_pos (by norm_num)]

/-- C4 witness: the spec's example bytes `[0x46, 0x4C, 0x46]`. -/
theorem bad_signature_sticky_witness :
    NetStream.tick envFail sBadSig 1 = { sBadSig with preload_offset := 3 } ∧
    NetStream.tick envOk
        { sBadSig with preload_offset := 3, buffer := sBadSig.buffer ++ [1, 2, 3] } 2
      = { sBadSig with preload_offset := 3, buffer := sBadSig.buffer ++ [1, 2, 3] } := by
  obtain ⟨h1, h2⟩ := bad_signature_sticky envFail sBadSig 1 rfl rfl
    (by norm_num [sBadSig, NetStream.new]) (by decide)
  exact ⟨h1, h2 envOk 2 [1, 2, 3]⟩

/-- Dispatch of a tag with an invalid payload changes nothing. -/
theorem dispatchTag_invalid (env : VideoBackend) (st : Option NetStreamType)
    (bmp : Option BitmapInfo) (tag : FlvTag) (np : Bool) (e : FlvError)
    (hd : tag.data = .invalid e) : dispatchTag env st bmp tag np = (st, bmp) := by
  unfold dispatchTag
  rw [hd]

/-- C6 (amended): a failure of `FlvTag::parse` itself — insufficient data or
any other cause — stops the tick's loop with the state unchanged: no cursor
advanced, no sentinel, the same position retried next tick.  But a tag that
frames correctly while its payload fails to parse (`FlvTagData::Invalid`)
does not stop the loop: it is consumed — both cursors advance past it — and
the loop continues with the next tag. -/
theorem parse_failure_stops_invalid_continues (env : VideoBackend)
    (s : NetStreamData) (dt : ℚ) (st : NetStreamType)
    (hty : s.stream_type = some st) :
    (∀ e, FlvTag.parse s.buffer s.offset = .error e → NetStream.tick env s dt = s) ∧
    (∀ tag np e, FlvTag.parse s.buffer s.offset = .ok (tag, np) →
      tag.data = .invalid e → (tag.timestamp : ℚ) < s.stream_time + dt →
      NetStream.tick env s dt
        = tagLoopF env (s.stream_time + dt) (s.buffer.length - s.offset)
            { s with offset := np, preload_offset := max np s.preload_offset }) := by
  constructor
  · intro e hp
    unfold NetStream.tick
    rw [hty]
    dsimp only
    rw [tagLoopF, hp]
  · intro tag np e hp hd hlt
    unfold NetStream.tick
    rw [hty]
    dsimp only
    rw [tagLoopF, hp]
    dsimp only
    rw [if_neg (not_le.mpr hlt), dispatchTag_invalid env _ _ tag _ e hd]
    dsimp only
    rw [hty]

/-- C6 witness: a 3-byte fragment stops the loop silently with no state
change, and a correctly framed video tag with an empty (unparseable) payload
is consumed — the loop recurses past position 7. -/
theorem parse_failure_stops_invalid_continues_witness :
    NetStream.tick envFail sShort 1 = sShort ∧
    NetStream.tick envFail sInvalidTag 1
      = tagLoopF envFail (sInvalidTag.stream_time + 1) 7
          { sInvalidTag with offset := 7, preload_offset := max 7 sInvalidTag.preload_offset } := by
  constructor
  · exact (parse_failure_stops_invalid_continues envFail sShort 1
      (.flv hdr1 none 0) rfl).1 .endOfData rfl
  · exact (parse_failure_stops_invalid_continues envFail sInvalidTag 1
      (.flv hdr1 none 0) rfl).2 ⟨0, .invalid .corrupt⟩ 7 .corrupt rfl rfl
      (by norm_num [sInvalidTag])

/-- C6 counterexample: the claim says a tag-parse failure other than
insufficient data stops the loop without advancing `offset` past the failing
position.  Concretely, `sInvalidTag` holds one correctly framed video tag
whose payload fails to parse (`FlvTagData.invalid`, the payload-parse
failure the source logs as an FLV data parsing failure), yet one tick
consumes it: `offset` moves from 0 to 7, past the failing tag. -/
theorem invalid_tag_consumed_counterexample :
    FlvTag.parse sInvalidTag.buffer sInvalidTag.offset
      = .ok (⟨0, .invalid .corrupt⟩, 7) ∧
    sInvalidTag.offset = 0 ∧ (NetStream.tick envFail sInvalidTag 1).offset = 7 := by
  refine ⟨rfl, rfl, ?_⟩
  have hlt : ¬ (((0 : Nat) : ℚ) ≥ sInvalidTag.stream_time + 1) := by
    norm_num [sInvalidTag]
  have e1 : NetStream.tick envFail sInvalidTag 1
      = tagLoopF envFail (sInvalidTag.stream_time + 1) 8 sInvalidTag := rfl
  have e2 : tagLoopF envFail (sInvalidTag.stream_time + 1) 8 sInvalidTag
      = tagLoopF envFail (sInvalidTag.stream_time + 1) 7
          { sInvalidTag with offset := 7, preload_offset := 7 } := by
    rw [tagLoopF]
    rw [show FlvTag.parse sInvalidTag.buffer sInvalidTag.offset
      = .ok (⟨0, .invalid .corrupt⟩, 7) from rfl]
    dsimp only
    rw [if_neg hlt]
    rfl
  have e3 : tagLoopF envFail (sInvalidTag.stream_time + 1) 7
      { sInvalidTag with offset := 7, preload_offset := 7 }
      = { sInvalidTag with offset := 7, preload_offset := 7 } := by
    rw [tagLoopF]
    rw [show FlvTag.parse ({ sInvalidTag with offset := 7, preload_offset := 7 } :
      NetStreamData).buffer 7 = .error .endOfData from rfl]
  rw [e1, e2, e3]

/-- C7: processing a video tag replaces `last_decoded_bitmap` only when the
backend's playback-decode call succeeds: with no registered handle, an
unresolvable codec id, or a failed decode the bitmap is exactly as before,
and any change at all certifies a successful decode whose picture it is. -/
theorem last_picture_update_rule (env : VideoBackend) (hdr : FlvHeader)
    (str : Option VideoStreamHandle) (fid : Nat) (bmp : Option BitmapInfo)
    (ts : Nat) (vd : FlvVideoData) (np : Bool) :
    (str = none →
      (dispatchTag env (some (.flv hdr str fid)) bmp ⟨ts, .video vd⟩ np).2 = bmp) ∧
    (VideoCodec.from_u8 (vd.codec_id % 256) = none →
      (dispatchTag env (some (.flv hdr str fid)) bmp ⟨ts, .video vd⟩ np).2 = bmp) ∧
    (∀ h c bytes, str = some h →
      VideoCodec.from_u8 (vd.codec_id % 256) = some c → vd.data = .data bytes →
      env.decode_video_stream_frame h ⟨c, bytes, fid⟩ = none →
      (dispatchTag env (some (.flv hdr str fid)) bmp ⟨ts, .video vd⟩ np).2 = bmp) ∧
    (∀ h c bytes pic, str = some h →
      VideoCodec.from_u8 (vd.codec_id % 256) = some c → vd.data = .data bytes →
      env.decode_video_stream_frame h ⟨c, bytes, fid⟩ = some pic →
      (dispatchTag env (some (.flv hdr str fid)) bmp ⟨ts, .video vd⟩ np).2 = some pic) ∧
    ((dispatchTag env (some (.flv hdr str fid)) bmp ⟨ts, .video vd⟩ np).2 ≠ bmp →
      ∃ h c bytes pic, str = some h ∧
        VideoCodec.from_u8 (vd.codec_id % 256) = some c ∧ vd.data = .data bytes ∧
        env.decode_video_stream_frame h ⟨c, bytes, fid⟩ = some pic ∧
        (dispatchTag env (some (.flv hdr str fid)) bmp ⟨ts, .video vd⟩ np).2
          = some pic) := by
  obtain ⟨ft, ci, vdd⟩ := vd
  have key : (dispatchTag env (some (.flv hdr str fid)) bmp ⟨ts, .video ⟨ft, ci, vdd⟩⟩ np).2
      = decodeVideoTag env (some (.flv hdr str fid)) bmp ⟨ft, ci, vdd⟩ := rfl
  rw [key]
  simp only [decodeVideoTag]
  refine ⟨?_, ?_, ?_, ?_, ?_⟩
  · intro h1
    subst h1
    cases hc : VideoCodec.from_u8 (ci % 256) <;> cases vdd <;> rfl
  · intro h2
    rw [h2]
    rcases str with _ | h <;> cases vdd <;> rfl
  · intro h c bytes h1 h2 h3 h4
    subst h1
    subst h3
    rw [h2]
    dsimp only
    rw [h4]
  · intro h c bytes pic h1 h2 h3 h4
    subst h1
    subst h3
    rw [h2]
    dsimp only
    rw [h4]
  · intro hne
    rcases hstr : str with _ | h
    · subst hstr
      cases hc : VideoCodec.from_u8 (ci % 256) <;> cases vdd <;> exact absurd rfl hne
    · subst hstr
      cases hc : VideoCodec.from_u8 (ci % 256) with
      | none => rw [hc] at hne; cases vdd <;> exact absurd rfl hne
      | some c =>
        rw [hc] at hne
        cases vdd with
        | data bytes =>
          dsimp only at hne ⊢
          cases hdec : env.decode_video_stream_frame h ⟨c, bytes, fid⟩ with
          | none => rw [hdec] at hne; exact absurd rfl hne
          | some pic => exact ⟨h, c, bytes, pic, rfl, rfl, rfl, hdec, rfl⟩
        | commandFrame c2 => exact absurd rfl hne
        | avcSequenceHeader d => exact absurd rfl hne
        | avcNalu c2 d => exact absurd rfl hne
        | avcEndOfSequence => exact absurd rfl hne

/-- C7 witness: no registered handle, so the bitmap is unchanged even though
the tag is a decodable raw video frame. -/
theorem last_picture_update_rule_witness :
    (dispatchTag envFail (some (.flv hdr1 none 0)) none
      ⟨0, .video ⟨1, 2, .data []⟩⟩ true).2 = none :=
  (last_picture_update_rule envFail hdr1 none 0 none 0 ⟨1, 2, .data []⟩ true).1 rfl

/-- C8 counterexample: the claim says `toggle_paused` twice equals
`toggle_paused` once; on the empty play list with stream 0, once gives the
list holding 0 while twice gives the empty list again. -/
theorem toggle_paused_not_idempotent :
    StreamManager.toggle_paused (StreamManager.toggle_paused [] 0) 0
      ≠ StreamManager.toggle_paused [] 0 := by decide

/-- C8 (amended): `ensure_playing` twice equals once on every play list, and
`ensure_paused` twice equals once on duplicate-free play lists (the only
reachable ones); `toggle_paused` is not idempotent but an involution on
membership: calling it twice restores exactly the original play set. -/
theorem scheduler_repeat_behavior :
    (∀ (l : List Nat) (s : Nat),
      StreamManager.ensure_playing (StreamManager.ensure_playing l s) s
        = StreamManager.ensure_playing l s) ∧
    (∀ (l : List Nat) (s : Nat), l.Nodup →
      StreamManager.ensure_paused (StreamManager.ensure_paused l s) s
        = StreamManager.ensure_paused l s) ∧
    (∀ (l : List Nat) (s : Nat), l.Nodup → ∀ x,
      x ∈ StreamManager.toggle_paused (StreamManager.toggle_paused l s) s ↔ x ∈ l) := by
  refine ⟨?_, ?_, ?_⟩
  · intro l s
    unfold StreamManager.ensure_playing
    by_cases h : s ∈ l
    · simp [h]
    · simp [h]
  · intro l s hnd
    unfold StreamManager.ensure_paused
    rw [List.erase_of_not_mem hnd.not_mem_erase]
  · intro l s hnd x
    unfold StreamManager.toggle_paused
    by_cases h : s ∈ l
    · rw [if_pos h, if_neg hnd.not_mem_erase]
      by_cases hx : x = s
      · subst hx; simp [h]
      · simp [hx, hnd.mem_erase_iff]
    · rw [if_neg h, if_pos (by simp), List.erase_append_right _ h]
      simp

/-- C8 witness: the two idempotent operations at concrete lists, and the
membership restored by a double toggle. -/
theorem scheduler_repeat_behavior_witness :
    StreamManager.ensure_playing (StreamManager.ensure_playing [] 0) 0
      = StreamManager.ensure_playing [] 0 ∧
    StreamManager.ensure_paused (StreamManager.ensure_paused [0, 1] 0) 0
      = StreamManager.ensure_paused [0, 1] 0 ∧
    (0 ∈ StreamManager.toggle_paused (StreamManager.toggle_paused [1] 0) 0 ↔ 0 ∈ [1]) :=
  ⟨scheduler_repeat_behavior.1 [] 0,
   scheduler_repeat_behavior.2.1 [0, 1] 0 (by decide),
   scheduler_repeat_behavior.2.2 [1] 0 (by decide) 0⟩

end RuffleStreams
